import Mathlib

/-!
Shallow embedding of the Detective Logic game core (src/App.tsx and the
shared type declarations): the game progression state machine, clue
lock/reveal bookkeeping, solution evaluation and XP reward computation.

External collaborators (case generation, hint retrieval, `authService.addXp`)
are modelled as explicit inputs: each handler that awaits one of them takes
the collaborator's result as a parameter.  The `Math.random()` stream used
when computing the initial clue locks is modelled as an injected stream of
rationals, one independent draw per clue position.  Calls to
`authService.addXp` are recorded in a ghost trace field `xpCalls` so that
claims about "no XP call is issued" are expressible.
-/

namespace DetectiveLogic

/-- `Difficulty` enum from the shared type declarations. -/
inductive Difficulty where
  | Easy
  | Medium
  | Hard
deriving DecidableEq, Repr

/-- `ClueType` enum from the shared type declarations
(`Physical` prints as "Physical Object" in the source). -/
inductive ClueType where
  | Observation
  | Testimony
  | Physical
  | Context
deriving DecidableEq, Repr

/-- `Clue` interface: numeric id, text, type tag, red-herring flag. -/
structure Clue where
  id : Nat
  text : String
  type : ClueType
  isRedHerring : Bool
deriving DecidableEq, Repr

/-- The `Option` interface from the shared type declarations (a suspect
entry); renamed `OptionItem` because `Option` is taken by the Lean core. -/
structure OptionItem where
  id : String
  text : String
deriving DecidableEq, Repr

/-- `MysteryCase` interface. -/
structure MysteryCase where
  title : String
  scenario : String
  difficulty : Difficulty
  clues : List Clue
  options : List OptionItem
  correctOptionId : String
  explanation : String
deriving DecidableEq, Repr

/-- `User` interface (the player profile held by the auth service). -/
structure User where
  username : String
  level : Nat
  currentXP : Nat
  xpToNextLevel : Nat
  casesSolved : Nat
  totalXp : Nat
deriving DecidableEq, Repr

/-- `GameState` enum: the session phase. -/
inductive GameState where
  | Auth
  | Idle
  | Loading
  | Playing
  | Solving
  | Success
  | Failure
  | Error
deriving DecidableEq, Repr

/-- The result object returned by `authService.addXp`. -/
structure AddXpResult where
  user : User
  leveledUp : Bool
deriving DecidableEq, Repr

/-- The App component's reactive state: one field per `useState` hook of the
game core (presentation-only fields such as the loading message are
omitted), plus the ghost trace `xpCalls` recording each amount passed to
`authService.addXp`. -/
structure AppState where
  user : Option User
  gameState : GameState
  mystery : Option MysteryCase
  revealedClues : List Nat
  lockedClues : List Nat
  activePuzzleClueId : Option Nat
  isCelebrating : Bool
  selectedDifficulty : Difficulty
  hint : Option String
  selectedOption : Option String
  error : Option String
  showLevelUp : Bool
  xpGained : Nat
  xpCalls : List Nat
deriving DecidableEq, Repr

/-- `revealClue` from App.tsx: append the id to `revealedClues` unless it is
already present. -/
def revealClue (clueId : Nat) (st : AppState) : AppState :=
  if st.revealedClues.contains clueId then st
  else { st with revealedClues := st.revealedClues ++ [clueId] }

/-- `handleClueClick` from App.tsx: a locked clue opens the puzzle modal for
that clue, an unlocked clue is revealed directly. -/
def handleClueClick (clueId : Nat) (st : AppState) : AppState :=
  if st.lockedClues.contains clueId then
    { st with activePuzzleClueId := some clueId }
  else
    revealClue clueId st

/-- `handlePuzzleSuccess` from App.tsx: when a puzzle clue is active, filter
its id out of `lockedClues`, reveal it, and clear the active puzzle id. -/
def handlePuzzleSuccess (st : AppState) : AppState :=
  match st.activePuzzleClueId with
  | none => st
  | some clueId =>
      let st1 := { st with lockedClues := st.lockedClues.filter (fun x => decide (x ≠ clueId)) }
      let st2 := revealClue clueId st1
      { st2 with activePuzzleClueId := none }

/-- The `isLockable` test inside `startGame`: only Physical Object and
Testimony clues are eligible for locking. -/
def isLockable (c : Clue) : Bool :=
  match c.type with
  | ClueType.Physical => true
  | ClueType.Testimony => true
  | _ => false

/-- The `chance` threshold inside `startGame`: 0.6 when difficulty is Hard,
0.4 otherwise. -/
def chance (d : Difficulty) : ℚ :=
  if d = Difficulty.Hard then (0.6 : ℚ) else (0.4 : ℚ)

/-- The `forEach` loop of `startGame` that builds the `locks` array: clue at
position `i` consumes draw `rand i`; a lockable clue whose draw falls below
the threshold pushes its id. -/
def computeLocksAux (rand : Nat → ℚ) (d : Difficulty) : List Clue → Nat → List Nat
  | [], _ => []
  | c :: rest, i =>
      (if isLockable c ∧ rand i < chance d then [c.id] else []) ++
        computeLocksAux rand d rest (i + 1)

/-- The initial lock computation of `startGame`, over the whole clue list. -/
def computeInitialLocks (clues : List Clue) (d : Difficulty) (rand : Nat → ℚ) : List Nat :=
  computeLocksAux rand d clues 0

/-- `startGame` from App.tsx, with the awaited `generateMystery` result and
the random stream passed in.  On success the freshly computed locks, the new
case and the Playing phase are installed atomically; on failure an error
banner is set and the phase returns to Idle. -/
def startGame (d : Difficulty) (genResult : Except String MysteryCase)
    (rand : Nat → ℚ) (st : AppState) : AppState :=
  let st0 := { st with
    gameState := GameState.Loading
    selectedDifficulty := d
    revealedClues := ([] : List Nat)
    lockedClues := ([] : List Nat)
    hint := (none : Option String)
    selectedOption := (none : Option String)
    error := (none : Option String)
    isCelebrating := false }
  match genResult with
  | Except.ok newCase =>
      { st0 with
        lockedClues := computeInitialLocks newCase.clues d rand
        mystery := some newCase
        gameState := GameState.Playing }
  | Except.error _ =>
      { st0 with
        error := some "Failed to contact headquarters."
        gameState := GameState.Idle }

/-- The XP switch inside `submitSolution`: Easy 50, Medium 100, Hard 200. -/
def rewardFor : Difficulty → Nat
  | Difficulty.Easy => 50
  | Difficulty.Medium => 100
  | Difficulty.Hard => 200

/-- The JavaScript truthiness test `!selectedOption`: both `null` and the
empty string count as no selection. -/
def isTruthy : Option String → Bool
  | none => false
  | some s => !(s == "")

/-- `submitSolution` from App.tsx, with the awaited `authService.addXp`
result passed in.  Guarded no-op when no (truthy) suspect id is selected or
no case is active.  A correct selection returns the phase to Playing, starts
the celebration, computes and displays the reward, and calls `addXp`
(recorded in the ghost trace; a failed call leaves the profile stale).  An
incorrect selection moves the phase to Failure. -/
def submitSolution (addXpRes : Except String AddXpResult) (st : AppState) : AppState :=
  match st.selectedOption, st.mystery with
  | some sel, some m =>
      if sel = "" then st
      else if sel = m.correctOptionId then
        let xp := rewardFor m.difficulty
        let st1 := { st with
          gameState := GameState.Playing
          isCelebrating := true
          xpGained := xp
          xpCalls := st.xpCalls ++ [xp] }
        match addXpRes with
        | Except.ok r =>
            { st1 with
              user := some r.user
              showLevelUp := if r.leveledUp then true else st1.showLevelUp }
        | Except.error _ => st1
      else { st with gameState := GameState.Failure }
  | _, _ => st

/-- `handleCelebrationComplete` from App.tsx. -/
def handleCelebrationComplete (st : AppState) : AppState :=
  { st with isCelebrating := false, gameState := GameState.Success }

/-- `resetGame` from App.tsx (the Dashboard button on the Success modal). -/
def resetGame (st : AppState) : AppState :=
  { st with gameState := GameState.Idle, mystery := (none : Option MysteryCase) }

/-- `fetchHint` from App.tsx with the awaited `getHint` result passed in:
no-op without a case; a failed fetch installs the fixed fallback text. -/
def fetchHint (hintRes : Except String String) (st : AppState) : AppState :=
  match st.mystery with
  | none => st
  | some _ =>
      match hintRes with
      | Except.ok t => { st with hint := some t }
      | Except.error _ => { st with hint := some "The connection is fuzzy." }

/-- The discrete player/collaborator events the UI can deliver to the game
core.  Asynchronous collaborator outcomes travel inside the action. -/
inductive Action where
  | login (u : User)
  | logout
  | start (d : Difficulty) (genResult : Except String MysteryCase) (rand : Nat → ℚ)
  | clueClick (id : Nat)
  | puzzleSuccess
  | puzzleClose
  | solveCase
  | selectSuspect (id : String)
  | confirm (addXpRes : Except String AddXpResult)
  | solvingClose
  | celebrationDone
  | reexamine
  | revealAnswer
  | dashboard
  | hintFetch (hintRes : Except String String)

/-- One UI event: each handler fires only under the conditions under which
its control is rendered and enabled in App.tsx (a disabled or absent control
delivers no event, modelled as a no-op). -/
def step (a : Action) (st : AppState) : AppState :=
  match a with
  | Action.login u => { st with user := some u, gameState := GameState.Idle }
  | Action.logout =>
      { st with user := (none : Option User), gameState := GameState.Auth,
                mystery := (none : Option MysteryCase) }
  | Action.start d genResult rand =>
      if st.gameState = GameState.Idle ∨ st.gameState = GameState.Success then
        startGame d genResult rand st
      else st
  | Action.clueClick id =>
      if st.gameState = GameState.Playing ∧ ¬ st.revealedClues.contains id then
        handleClueClick id st
      else st
  | Action.puzzleSuccess => handlePuzzleSuccess st
  | Action.puzzleClose => { st with activePuzzleClueId := (none : Option Nat) }
  | Action.solveCase =>
      if st.gameState = GameState.Playing ∧ 1 ≤ st.revealedClues.length then
        { st with gameState := GameState.Solving }
      else st
  | Action.selectSuspect id =>
      if st.gameState = GameState.Solving then { st with selectedOption := some id } else st
  | Action.confirm addXpRes =>
      if st.gameState = GameState.Solving ∧ isTruthy st.selectedOption then
        submitSolution addXpRes st
      else st
  | Action.solvingClose =>
      if st.gameState = GameState.Solving then { st with gameState := GameState.Playing } else st
  | Action.celebrationDone => if st.isCelebrating then handleCelebrationComplete st else st
  | Action.reexamine =>
      if st.gameState = GameState.Failure then { st with gameState := GameState.Playing } else st
  | Action.revealAnswer =>
      if st.gameState = GameState.Failure then { st with gameState := GameState.Success } else st
  | Action.dashboard => if st.gameState = GameState.Success then resetGame st else st
  | Action.hintFetch hintRes =>
      if st.gameState = GameState.Playing then fetchHint hintRes st else st

/-- The initial `useState` values of the App component. -/
def initState : AppState where
  user := none
  gameState := GameState.Auth
  mystery := none
  revealedClues := []
  lockedClues := []
  activePuzzleClueId := none
  isCelebrating := false
  selectedDifficulty := Difficulty.Easy
  hint := none
  selectedOption := none
  error := none
  showLevelUp := false
  xpGained := 0
  xpCalls := []

/-- The states a session can reach from the initial state through UI
events. -/
inductive Reachable : AppState → Prop where
  | init : Reachable initState
  | next : ∀ {st : AppState} (a : Action), Reachable st → Reachable (step a st)

/-- A clue-gate operation: a clue click (which either opens the puzzle or
reveals) or a puzzle success resolution. -/
inductive ClueOp where
  | click (id : Nat)
  | puzzleSuccess
deriving Repr

/-- Apply one clue-gate operation through the App.tsx handlers. -/
def applyClueOp : ClueOp → AppState → AppState
  | ClueOp.click id, st => handleClueClick id st
  | ClueOp.puzzleSuccess, st => handlePuzzleSuccess st

/-- Apply a sequence of clue-gate operations, left to right. -/
def applyClueOps : List ClueOp → AppState → AppState
  | [], st => st
  | op :: rest, st => applyClueOps rest (applyClueOp op st)

/-- The intersection `revealed ∩ locked` of a state, as the list of revealed
clue ids that are also locked. -/
def revealedLockedInter (st : AppState) : List Nat :=
  st.revealedClues.filter (fun id => st.lockedClues.contains id)

/-! ### Disjointness of revealed and locked clue ids -/

lemma contains_iff_mem {l : List Nat} {a : Nat} : l.contains a = true ↔ a ∈ l := by
  simp [List.contains, List.elem_iff]

/-- The disjointness invariant on a state's clue visibility. -/
def RLdisj (st : AppState) : Prop :=
  ∀ a ∈ st.revealedClues, a ∉ st.lockedClues

lemma revealClue_lockedClues (id : Nat) (st : AppState) :
    (revealClue id st).lockedClues = st.lockedClues := by
  unfold revealClue; split <;> rfl

lemma revealClue_revealedClues (id : Nat) (st : AppState) :
    (revealClue id st).revealedClues =
      (if id ∈ st.revealedClues then st.revealedClues else st.revealedClues ++ [id]) := by
  unfold revealClue
  by_cases h : id ∈ st.revealedClues
  · rw [if_pos (contains_iff_mem.mpr h), if_pos h]
  · rw [if_neg (fun hc => h (contains_iff_mem.mp hc)), if_neg h]

lemma mem_revealClue_revealedClues {a : Nat} (id : Nat) (st : AppState)
    (h : a ∈ (revealClue id st).revealedClues) : a ∈ st.revealedClues ∨ a = id := by
  unfold revealClue at h
  split at h
  · exact Or.inl h
  · rcases List.mem_append.mp h with h1 | h1
    · exact Or.inl h1
    · exact Or.inr (List.mem_singleton.mp h1)

lemma RLdisj_revealClue {st : AppState} (id : Nat) (hd : RLdisj st)
    (hid : id ∉ st.lockedClues) : RLdisj (revealClue id st) := by
  intro a ha
  rw [revealClue_lockedClues]
  rcases mem_revealClue_revealedClues id st ha with h1 | h1
  · exact hd a h1
  · rwa [h1]

lemma RLdisj_handleClueClick {st : AppState} (id : Nat) (hd : RLdisj st) :
    RLdisj (handleClueClick id st) := by
  unfold handleClueClick
  split
  · exact hd
  · rename_i hnc
    refine RLdisj_revealClue id hd ?_
    intro hmem
    exact hnc (contains_iff_mem.mpr hmem)

lemma RLdisj_handlePuzzleSuccess {st : AppState} (hd : RLdisj st) :
    RLdisj (handlePuzzleSuccess st) := by
  unfold handlePuzzleSuccess
  cases hA : st.activePuzzleClueId with
  | none => exact hd
  | some c =>
      intro a ha
      rw [revealClue_lockedClues]
      have hc : c ∉ st.lockedClues.filter (fun x => decide (x ≠ c)) := by
        intro hmem
        have := List.of_mem_filter hmem
        simp at this
      rcases mem_revealClue_revealedClues c _ ha with h1 | h1
      · intro hmem
        exact hd a h1 (List.mem_of_mem_filter hmem)
      · rwa [h1]

lemma RLdisj_applyClueOps {st : AppState} (ops : List ClueOp) (hd : RLdisj st) :
    RLdisj (applyClueOps ops st) := by
  induction ops generalizing st with
  | nil => exact hd
  | cons op rest ih =>
      cases op with
      | click id => exact ih (RLdisj_handleClueClick id hd)
      | puzzleSuccess => exact ih (RLdisj_handlePuzzleSuccess hd)

lemma startGame_revealedClues (d : Difficulty) (genResult : Except String MysteryCase)
    (rand : Nat → ℚ) (st : AppState) :
    (startGame d genResult rand st).revealedClues = [] := by
  unfold startGame; cases genResult <;> rfl

lemma filter_contains_eq_nil {l ls : List Nat} (h : ∀ a ∈ l, a ∉ ls) :
    l.filter (fun id => ls.contains id) = [] := by
  induction l with
  | nil => rfl
  | cons a t ih =>
      rw [List.filter_cons]
      have ha : ls.contains a = false :=
        Bool.eq_false_iff.mpr
          (fun hc => h a (List.mem_cons_self a t) (contains_iff_mem.mp hc))
      simp only [ha, Bool.false_eq_true, if_false]
      exact ih (fun b hb => h b (List.mem_cons_of_mem a hb))

lemma revealedLockedInter_eq_nil {st : AppState} (hd : RLdisj st) :
    revealedLockedInter st = [] :=
  filter_contains_eq_nil hd

/-- C1: after the initial lock computation of a new case, every sequence of
clue-gate operations (clue clicks and puzzle-success resolutions) keeps the
revealed clue-id set and the locked clue-id set disjoint: their intersection
is empty after every operation. -/
theorem claim_C1_revealed_locked_disjoint (st : AppState) (d : Difficulty)
    (genResult : Except String MysteryCase) (rand : Nat → ℚ) (ops : List ClueOp) :
    revealedLockedInter (applyClueOps ops (startGame d genResult rand st)) = [] := by
  refine revealedLockedInter_eq_nil (RLdisj_applyClueOps ops ?_)
  intro a ha
  rw [startGame_revealedClues] at ha
  exact absurd ha (List.not_mem_nil a)

/-! ### Puzzle resolution on an unlocked clue id -/

/-- A concrete state with the puzzle modal open on clue id 0 while id 0 is
not locked: nothing is revealed, nothing is locked. -/
def unlockedPuzzleState : AppState where
  user := none
  gameState := GameState.Playing
  mystery := none
  revealedClues := []
  lockedClues := []
  activePuzzleClueId := some 0
  isCelebrating := false
  selectedDifficulty := Difficulty.Easy
  hint := none
  selectedOption := none
  error := none
  showLevelUp := false
  xpGained := 0
  xpCalls := []

/-- C2 counterexample: resolving puzzle success for an active clue id that is
not in the locked set is not a no-op on the revealed set — the id gets
revealed (added to `revealedClues`). -/
theorem claim_C2_counterexample :
    (0 : Nat) ∉ unlockedPuzzleState.lockedClues ∧
      unlockedPuzzleState.activePuzzleClueId = some 0 ∧
      (handlePuzzleSuccess unlockedPuzzleState).revealedClues ≠
        unlockedPuzzleState.revealedClues := by
  refine ⟨List.not_mem_nil 0, rfl, ?_⟩
  intro h
  simp [handlePuzzleSuccess, revealClue, unlockedPuzzleState] at h

/-- C2 amended: resolving puzzle success for an active clue id not in the
locked set leaves the locked set unchanged, removes nothing from the
revealed set, and adds the id to the revealed set exactly when it was not
already revealed; the active puzzle id is cleared and no error is raised. -/
theorem claim_C2_unlocked_puzzle_success (st : AppState) (id : Nat)
    (hA : st.activePuzzleClueId = some id) (hL : id ∉ st.lockedClues) :
    (handlePuzzleSuccess st).lockedClues = st.lockedClues ∧
      (handlePuzzleSuccess st).revealedClues =
        (if id ∈ st.revealedClues then st.revealedClues
         else st.revealedClues ++ [id]) ∧
      (handlePuzzleSuccess st).activePuzzleClueId = none := by
  unfold handlePuzzleSuccess
  rw [hA]
  have hfilter : st.lockedClues.filter (fun x => decide (x ≠ id)) = st.lockedClues :=
    List.filter_eq_self.mpr (fun a ha => decide_eq_true (fun he => hL (he ▸ ha)))
  refine ⟨?_, ?_, rfl⟩
  · show (revealClue id
        { st with lockedClues := st.lockedClues.filter (fun x => decide (x ≠ id)),
                  activePuzzleClueId := some id }).lockedClues =
      st.lockedClues
    rw [revealClue_lockedClues]
    exact hfilter
  · show (revealClue id
        { st with lockedClues := st.lockedClues.filter (fun x => decide (x ≠ id)),
                  activePuzzleClueId := some id }).revealedClues =
      (if id ∈ st.revealedClues then st.revealedClues else st.revealedClues ++ [id])
    rw [revealClue_revealedClues]

/-- C2 witness: the amended theorem applied at a concrete state whose locked
set misses the active clue id. -/
theorem claim_C2_unlocked_puzzle_success_witness :
    (handlePuzzleSuccess unlockedPuzzleState).lockedClues =
        unlockedPuzzleState.lockedClues ∧
      (handlePuzzleSuccess unlockedPuzzleState).revealedClues =
        (if (0 : Nat) ∈ unlockedPuzzleState.revealedClues then
          unlockedPuzzleState.revealedClues
         else unlockedPuzzleState.revealedClues ++ [0]) ∧
      (handlePuzzleSuccess unlockedPuzzleState).activePuzzleClueId = none :=
  claim_C2_unlocked_puzzle_success unlockedPuzzleState 0 rfl (by decide)

/-! ### The initial lock computation -/

lemma isLockable_iff (c : Clue) :
    isLockable c = true ↔ (c.type = ClueType.Physical ∨ c.type = ClueType.Testimony) := by
  rcases c with ⟨cid, ctext, cty, crh⟩
  cases cty <;> simp [isLockable]

lemma mem_computeLocksAux (rand : Nat → ℚ) (d : Difficulty) (clues : List Clue)
    (i : Nat) (a : Nat) :
    a ∈ computeLocksAux rand d clues i ↔
      ∃ j, ∃ hj : j < clues.length,
        (clues.get ⟨j, hj⟩).id = a ∧ isLockable (clues.get ⟨j, hj⟩) = true ∧
          rand (i + j) < chance d := by
  induction clues generalizing i with
  | nil => simp [computeLocksAux]
  | cons c rest ih =>
      rw [computeLocksAux, List.mem_append, ih (i + 1)]
      constructor
      · rintro (hmem | ⟨j, hj, h1, h2, h3⟩)
        · split at hmem
          · rename_i hP
            have ha : a = c.id := List.mem_singleton.mp hmem
            exact ⟨0, Nat.succ_pos _, by simpa using ha.symm, by simpa using hP.1, by
              simpa using hP.2⟩
          · exact absurd hmem (List.not_mem_nil a)
        · refine ⟨j + 1, Nat.succ_lt_succ hj, by simpa using h1, by simpa using h2, ?_⟩
          rw [show i + (j + 1) = (i + 1) + j by omega]
          exact h3
      · rintro ⟨j, hj, h1, h2, h3⟩
        cases j with
        | zero =>
            left
            have hc : c.id = a := by simpa using h1
            have hl : isLockable c = true := by simpa using h2
            have hr : rand i < chance d := by simpa using h3
            rw [if_pos ⟨hl, hr⟩]
            simp [hc]
        | succ k =>
            right
            refine ⟨k, Nat.lt_of_succ_lt_succ hj, by simpa using h1, by simpa using h2, ?_⟩
            rw [show (i + 1) + k = i + (k + 1) by omega]
            exact h3

lemma mem_computeLocksAuxE (rand : Nat → ℚ) (d : Difficulty) (clues : List Clue)
    (i : Nat) (a : Nat) :
    a ∈ computeLocksAux rand d clues i ↔
      ∃ j, ∃ hj : j < clues.length,
        clues[j].id = a ∧ isLockable clues[j] = true ∧ rand (i + j) < chance d := by
  rw [mem_computeLocksAux]
  constructor
  · rintro ⟨j, hj, h1, h2, h3⟩
    exact ⟨j, hj, by simpa using h1, by simpa using h2, h3⟩
  · rintro ⟨j, hj, h1, h2, h3⟩
    exact ⟨j, hj, by simpa using h1, by simpa using h2, h3⟩

/-- C3: the initial locked set only ever contains ids of clues typed
Physical Object or Testimony (Observation and Context clues are never
locked), and — when clue ids are unique, as the data model requires — the
clue at position `j` is locked exactly when it is of an eligible type and
its independent random draw falls below 0.6 for Hard difficulty and 0.4
otherwise. -/
theorem claim_C3_initial_locks (clues : List Clue) (d : Difficulty) (rand : Nat → ℚ) :
    (∀ a ∈ computeInitialLocks clues d rand,
        ∃ c ∈ clues, c.id = a ∧ (c.type = ClueType.Physical ∨ c.type = ClueType.Testimony)) ∧
      ((clues.map Clue.id).Nodup →
        ∀ j, ∀ hj : j < clues.length,
          (clues[j].id ∈ computeInitialLocks clues d rand ↔
            (clues[j].type = ClueType.Physical ∨ clues[j].type = ClueType.Testimony) ∧
              rand j < (if d = Difficulty.Hard then (0.6 : ℚ) else (0.4 : ℚ)))) := by
  constructor
  · intro a ha
    rw [computeInitialLocks, mem_computeLocksAuxE] at ha
    obtain ⟨j, hj, h1, h2, h3⟩ := ha
    exact ⟨clues[j], List.getElem_mem hj, h1, (isLockable_iff _).mp h2⟩
  · intro hnd j hj
    rw [computeInitialLocks, mem_computeLocksAuxE]
    constructor
    · rintro ⟨j1, hj1, h1, h2, h3⟩
      have hm1 : j1 < (clues.map Clue.id).length := by simpa using hj1
      have hm2 : j < (clues.map Clue.id).length := by simpa using hj
      have hjj : j1 = j := by
        refine (@List.Nodup.getElem_inj_iff _ _ hnd j1 hm1 j hm2).mp ?_
        rw [List.getElem_map, List.getElem_map]
        exact h1
      subst hjj
      refine ⟨(isLockable_iff _).mp h2, ?_⟩
      simpa [chance] using h3
    · rintro ⟨hty, hr⟩
      refine ⟨j, hj, rfl, (isLockable_iff _).mpr hty, ?_⟩
      simpa [chance] using hr

/-- A two-clue list for concrete instantiations: one Physical clue (id 1),
one Observation clue (id 2). -/
def demoClues : List Clue :=
  [{ id := 1, text := "print", type := ClueType.Physical, isRedHerring := false },
   { id := 2, text := "note", type := ClueType.Observation, isRedHerring := false }]

/-- A random stream that always draws 0, below both thresholds. -/
def demoRand : Nat → ℚ := fun _ => 0

lemma demoClues_locks : computeInitialLocks demoClues Difficulty.Hard demoRand = [1] := by
  simp [computeInitialLocks, computeLocksAux, chance, isLockable, demoClues, demoRand]
  norm_num

/-- C3 witness: on the two-clue demo list at Hard difficulty with an
all-zero random stream, only the Physical clue id 1 is locked, and the
position-0 characterization holds. -/
theorem claim_C3_initial_locks_witness :
    (∃ c ∈ demoClues, c.id = 1 ∧ (c.type = ClueType.Physical ∨ c.type = ClueType.Testimony)) ∧
      ((demoClues.get ⟨0, Nat.succ_pos 1⟩).id ∈
          computeInitialLocks demoClues Difficulty.Hard demoRand ↔
        ((demoClues.get ⟨0, Nat.succ_pos 1⟩).type = ClueType.Physical ∨
            (demoClues.get ⟨0, Nat.succ_pos 1⟩).type = ClueType.Testimony) ∧
          demoRand 0 < (if Difficulty.Hard = Difficulty.Hard then (0.6 : ℚ) else (0.4 : ℚ))) := by
  have h := claim_C3_initial_locks demoClues Difficulty.Hard demoRand
  refine ⟨h.1 1 ?_, ?_⟩
  · rw [demoClues_locks]
    exact List.mem_singleton.mpr rfl
  · exact h.2 (by decide) 0 (Nat.succ_pos 1)

/-! ### Projection facts about the handlers -/

lemma revealClue_gameState (id : Nat) (st : AppState) :
    (revealClue id st).gameState = st.gameState := by
  unfold revealClue; split <;> rfl

lemma revealClue_xpGained (id : Nat) (st : AppState) :
    (revealClue id st).xpGained = st.xpGained := by
  unfold revealClue; split <;> rfl

lemma revealClue_ne_nil (id : Nat) (st : AppState) (h : st.revealedClues ≠ []) :
    (revealClue id st).revealedClues ≠ [] := by
  rw [revealClue_revealedClues]
  split
  · exact h
  · exact List.append_ne_nil_of_right_ne_nil _ (by simp)

lemma handleClueClick_gameState (id : Nat) (st : AppState) :
    (handleClueClick id st).gameState = st.gameState := by
  unfold handleClueClick
  split
  · rfl
  · exact revealClue_gameState id st

lemma handleClueClick_xpGained (id : Nat) (st : AppState) :
    (handleClueClick id st).xpGained = st.xpGained := by
  unfold handleClueClick
  split
  · rfl
  · exact revealClue_xpGained id st

lemma handlePuzzleSuccess_gameState (st : AppState) :
    (handlePuzzleSuccess st).gameState = st.gameState := by
  unfold handlePuzzleSuccess
  cases st.activePuzzleClueId with
  | none => rfl
  | some c => exact revealClue_gameState c _

lemma handlePuzzleSuccess_xpGained (st : AppState) :
    (handlePuzzleSuccess st).xpGained = st.xpGained := by
  unfold handlePuzzleSuccess
  cases st.activePuzzleClueId with
  | none => rfl
  | some c => exact revealClue_xpGained c _

lemma handlePuzzleSuccess_ne_nil (st : AppState) (h : st.revealedClues ≠ []) :
    (handlePuzzleSuccess st).revealedClues ≠ [] := by
  unfold handlePuzzleSuccess
  cases st.activePuzzleClueId with
  | none => exact h
  | some c => exact revealClue_ne_nil c _ h

lemma fetchHint_gameState (hintRes : Except String String) (st : AppState) :
    (fetchHint hintRes st).gameState = st.gameState := by
  unfold fetchHint
  cases st.mystery with
  | none => rfl
  | some m => cases hintRes <;> rfl

lemma fetchHint_revealedClues (hintRes : Except String String) (st : AppState) :
    (fetchHint hintRes st).revealedClues = st.revealedClues := by
  unfold fetchHint
  cases st.mystery with
  | none => rfl
  | some m => cases hintRes <;> rfl

lemma fetchHint_xpGained (hintRes : Except String String) (st : AppState) :
    (fetchHint hintRes st).xpGained = st.xpGained := by
  unfold fetchHint
  cases st.mystery with
  | none => rfl
  | some m => cases hintRes <;> rfl

lemma submitSolution_revealedClues (res : Except String AddXpResult) (st : AppState) :
    (submitSolution res st).revealedClues = st.revealedClues := by
  unfold submitSolution
  split
  · split
    · rfl
    · split
      · cases res <;> rfl
      · rfl
  · rfl

lemma submitSolution_xpGained (res : Except String AddXpResult) (st : AppState) :
    (submitSolution res st).xpGained = st.xpGained ∨
      ∃ m, st.mystery = some m ∧ st.selectedOption = some m.correctOptionId ∧
        (submitSolution res st).xpGained = rewardFor m.difficulty := by
  unfold submitSolution
  split
  · rename_i sel m ho hm
    split
    · left; rfl
    · split
      · rename_i he hc
        right
        refine ⟨m, hm, by rw [ho, hc], ?_⟩
        cases res <;> rfl
      · left; rfl
  · left; rfl

/-! ### Solution evaluation, rewards and guards -/

/-- C4: with an active case and a selected suspect id, submitting the
solution is Correct exactly when the selected id equals the case's
`correctOptionId`: on the correct id the phase goes to Playing with the
celebration running and reaches Success when the celebration completes; on
any other id the phase goes to Failure. -/
theorem claim_C4_solution_evaluation (st : AppState) (m : MysteryCase) (sel : String)
    (res : Except String AddXpResult) (hm : st.mystery = some m)
    (hs : st.selectedOption = some sel) (hne : sel ≠ "") :
    (sel = m.correctOptionId →
        (submitSolution res st).gameState = GameState.Playing ∧
          (submitSolution res st).isCelebrating = true ∧
          (handleCelebrationComplete (submitSolution res st)).gameState = GameState.Success) ∧
      (sel ≠ m.correctOptionId →
        (submitSolution res st).gameState = GameState.Failure) := by
  constructor
  · intro hc
    simp only [submitSolution, hs, hm]
    rw [if_neg hne, if_pos hc]
    cases res <;> exact ⟨rfl, rfl, rfl⟩
  · intro hc
    simp only [submitSolution, hs, hm]
    rw [if_neg hne, if_neg hc]

/-- C5: the XP reward is 50 for Easy, 100 for Medium and 200 for Hard (total
over `Difficulty`, no error path), and on a correct solve exactly this amount
for the case's difficulty is passed to the `addXp` persistence call and
displayed. -/
theorem claim_C5_reward_mapping (st : AppState) (m : MysteryCase) (sel : String)
    (res : Except String AddXpResult) (hm : st.mystery = some m)
    (hs : st.selectedOption = some sel) (hne : sel ≠ "")
    (hc : sel = m.correctOptionId) :
    (rewardFor Difficulty.Easy = 50 ∧ rewardFor Difficulty.Medium = 100 ∧
        rewardFor Difficulty.Hard = 200) ∧
      (submitSolution res st).xpCalls = st.xpCalls ++ [rewardFor m.difficulty] ∧
      (submitSolution res st).xpGained = rewardFor m.difficulty := by
  refine ⟨⟨rfl, rfl, rfl⟩, ?_, ?_⟩ <;>
  · simp only [submitSolution, hs, hm]
    rw [if_neg hne, if_pos hc]
    cases res <;> rfl

/-- C6: with an active case, confirming a selected suspect id different from
the case's `correctOptionId` moves the phase to Failure and issues no XP
call: the `addXp` trace, the profile and the displayed reward are all
unchanged. -/
theorem claim_C6_incorrect_no_xp (st : AppState) (m : MysteryCase) (sel : String)
    (res : Except String AddXpResult) (hm : st.mystery = some m)
    (hs : st.selectedOption = some sel) (hne : sel ≠ "")
    (hc : sel ≠ m.correctOptionId) :
    (submitSolution res st).gameState = GameState.Failure ∧
      (submitSolution res st).xpCalls = st.xpCalls ∧
      (submitSolution res st).user = st.user ∧
      (submitSolution res st).xpGained = st.xpGained := by
  simp only [submitSolution, hs, hm]
  rw [if_neg hne, if_neg hc]
  exact ⟨rfl, rfl, rfl, rfl⟩

/-- C7: the reveal-answer event in the Failure phase moves the phase to
Success but grants no reward: no `addXp` call is recorded and the profile
and displayed reward are unchanged. -/
theorem claim_C7_reveal_answer_no_reward (st : AppState)
    (h : st.gameState = GameState.Failure) :
    (step Action.revealAnswer st).gameState = GameState.Success ∧
      (step Action.revealAnswer st).xpCalls = st.xpCalls ∧
      (step Action.revealAnswer st).user = st.user ∧
      (step Action.revealAnswer st).xpGained = st.xpGained := by
  simp only [step]
  rw [if_pos h]
  exact ⟨rfl, rfl, rfl, rfl⟩

/-- C9: submitting with no suspect selected or no active case is a guarded
no-op: the whole state is returned unchanged. -/
theorem claim_C9_submit_guard (st : AppState) (res : Except String AddXpResult)
    (h : st.selectedOption = none ∨ st.mystery = none) :
    submitSolution res st = st := by
  unfold submitSolution
  split
  · rename_i sel m ho hm
    rcases h with h | h
    · rw [h] at ho
      exact Option.noConfusion ho
    · rw [h] at hm
      exact Option.noConfusion hm
  · rfl

/-- A demo player profile. -/
def demoUser : User :=
  { username := "ace", level := 1, currentXP := 0, xpToNextLevel := 100,
    casesSolved := 0, totalXp := 0 }

/-- A demo case whose culprit is suspect "A". -/
def demoCase : MysteryCase :=
  { title := "The Missing Donut", scenario := "sc", difficulty := Difficulty.Easy,
    clues := demoClues,
    options := [{ id := "A", text := "Alice" }, { id := "B", text := "Bob" }],
    correctOptionId := "A", explanation := "ex" }

/-- A Solving-phase state on the demo case with suspect "A" selected. -/
def solvingState : AppState :=
  { initState with
    gameState := GameState.Solving
    mystery := some demoCase
    revealedClues := [1]
    selectedOption := some "A" }

/-- The same Solving-phase state with the wrong suspect "B" selected. -/
def solvingStateB : AppState :=
  { solvingState with selectedOption := some "B" }

/-- A successful `addXp` response. -/
def demoXpOk : Except String AddXpResult :=
  Except.ok { user := demoUser, leveledUp := false }

/-- C4 witness: on the demo case, confirming "A" celebrates and reaches
Success, confirming "B" fails. -/
theorem claim_C4_solution_evaluation_witness :
    ((submitSolution demoXpOk solvingState).gameState = GameState.Playing ∧
        (submitSolution demoXpOk solvingState).isCelebrating = true ∧
        (handleCelebrationComplete (submitSolution demoXpOk solvingState)).gameState =
          GameState.Success) ∧
      (submitSolution demoXpOk solvingStateB).gameState = GameState.Failure :=
  ⟨(claim_C4_solution_evaluation solvingState demoCase "A" demoXpOk rfl rfl
      (by decide)).1 rfl,
   (claim_C4_solution_evaluation solvingStateB demoCase "B" demoXpOk rfl rfl
      (by decide)).2 (by decide)⟩

/-- C5 witness: the correct solve of the Easy demo case records an addXp
call of 50 and displays 50. -/
theorem claim_C5_reward_mapping_witness :
    (rewardFor Difficulty.Easy = 50 ∧ rewardFor Difficulty.Medium = 100 ∧
        rewardFor Difficulty.Hard = 200) ∧
      (submitSolution demoXpOk solvingState).xpCalls =
        solvingState.xpCalls ++ [rewardFor demoCase.difficulty] ∧
      (submitSolution demoXpOk solvingState).xpGained = rewardFor demoCase.difficulty :=
  claim_C5_reward_mapping solvingState demoCase "A" demoXpOk rfl rfl (by decide) rfl

/-- C6 witness: confirming the wrong suspect "B" on the demo case fails with
no XP call. -/
theorem claim_C6_incorrect_no_xp_witness :
    (submitSolution demoXpOk solvingStateB).gameState = GameState.Failure ∧
      (submitSolution demoXpOk solvingStateB).xpCalls = solvingStateB.xpCalls ∧
      (submitSolution demoXpOk solvingStateB).user = solvingStateB.user ∧
      (submitSolution demoXpOk solvingStateB).xpGained = solvingStateB.xpGained :=
  claim_C6_incorrect_no_xp solvingStateB demoCase "B" demoXpOk rfl rfl (by decide)
    (by decide)

/-- A Failure-phase state on the demo case. -/
def failureState : AppState :=
  { solvingState with gameState := GameState.Failure }

/-- C7 witness: reveal-answer on a concrete Failure state reaches Success
with no XP call and an unchanged profile. -/
theorem claim_C7_reveal_answer_no_reward_witness :
    (step Action.revealAnswer failureState).gameState = GameState.Success ∧
      (step Action.revealAnswer failureState).xpCalls = failureState.xpCalls ∧
      (step Action.revealAnswer failureState).user = failureState.user ∧
      (step Action.revealAnswer failureState).xpGained = failureState.xpGained :=
  claim_C7_reveal_answer_no_reward failureState rfl

/-- C9 witness: in the initial state (no selection, no case), submitting is
the identity. -/
theorem claim_C9_submit_guard_witness :
    submitSolution demoXpOk initState = initState :=
  claim_C9_submit_guard initState demoXpOk (Or.inl rfl)

/-! ### The Solving phase requires a revealed clue -/

lemma step_solving_inv (a : Action) (st : AppState)
    (h : st.gameState = GameState.Solving → st.revealedClues ≠ []) :
    (step a st).gameState = GameState.Solving → (step a st).revealedClues ≠ [] := by
  cases a with
  | login u =>
      intro hs
      simp [step] at hs
  | logout =>
      intro hs
      simp [step] at hs
  | start d g r =>
      simp only [step]
      split
      · intro hs
        cases g <;> simp [startGame] at hs
      · exact h
  | clueClick id =>
      simp only [step]
      split
      · rename_i hg
        intro hs
        rw [handleClueClick_gameState, hg.1] at hs
        simp at hs
      · exact h
  | puzzleSuccess =>
      simp only [step]
      intro hs
      rw [handlePuzzleSuccess_gameState] at hs
      exact handlePuzzleSuccess_ne_nil st (h hs)
  | puzzleClose =>
      intro hs
      exact h hs
  | solveCase =>
      simp only [step]
      split
      · rename_i hg
        intro hs
        exact List.length_pos.mp (Nat.lt_of_lt_of_le Nat.zero_lt_one hg.2)
      · exact h
  | selectSuspect id =>
      simp only [step]
      split
      · intro hs
        exact h hs
      · exact h
  | confirm res =>
      simp only [step]
      split
      · rename_i hg
        intro hs
        rw [submitSolution_revealedClues]
        exact h hg.1
      · exact h
  | solvingClose =>
      simp only [step]
      split
      · intro hs
        simp at hs
      · exact h
  | celebrationDone =>
      simp only [step]
      split
      · intro hs
        simp [handleCelebrationComplete] at hs
      · exact h
  | reexamine =>
      simp only [step]
      split
      · intro hs
        simp at hs
      · exact h
  | revealAnswer =>
      simp only [step]
      split
      · intro hs
        simp at hs
      · exact h
  | dashboard =>
      simp only [step]
      split
      · intro hs
        simp [resetGame] at hs
      · exact h
  | hintFetch r =>
      simp only [step]
      split
      · intro hs
        rw [fetchHint_revealedClues]
        rw [fetchHint_gameState] at hs
        exact h hs
      · exact h

/-- C8: in every reachable session state, the Solving phase implies at least
one revealed clue: the solve event is guarded on a nonempty revealed set, so
the machine never enters Solving with no clue revealed. -/
theorem claim_C8_no_solving_without_reveal (st : AppState) (h : Reachable st) :
    st.gameState = GameState.Solving → st.revealedClues ≠ [] := by
  induction h with
  | init =>
      intro hs
      simp [initState] at hs
  | next a hr ih => exact step_solving_inv a _ ih

/-- The demo case with a single Observation clue (never lockable). -/
def demoCaseObs : MysteryCase :=
  { demoCase with
    clues := [{ id := 2, text := "note", type := ClueType.Observation, isRedHerring := false }] }

/-- C8 witness: a concrete reachable Solving state — login, start on the
observation-only case, reveal clue 2, request solving — has a nonempty
revealed set. -/
theorem claim_C8_no_solving_without_reveal_witness :
    (step Action.solveCase (step (Action.clueClick 2)
        (step (Action.start Difficulty.Easy (Except.ok demoCaseObs) demoRand)
          (step (Action.login demoUser) initState)))).revealedClues ≠ [] :=
  claim_C8_no_solving_without_reveal _
    (Reachable.next Action.solveCase (Reachable.next (Action.clueClick 2)
      (Reachable.next (Action.start Difficulty.Easy (Except.ok demoCaseObs) demoRand)
        (Reachable.next (Action.login demoUser) Reachable.init)))) rfl

/-! ### The displayed reward is changed only by a correct solve -/

/-- C10: the displayed reward `xpGained` is changed by a step only when that
step is a confirmed correct solution submission (in which case it becomes
the reward of the active case's difficulty); in particular `startGame` never
resets it, the reveal-answer transition leaves it unchanged, and it starts
at 0 — so a Success screen reached via reveal-answer shows the most recent
correct solve's reward, or 0 if none. -/
theorem claim_C10_xpGained_frame (st : AppState) (a : Action) :
    ((step a st).xpGained = st.xpGained ∨
        ∃ res m, a = Action.confirm res ∧ st.mystery = some m ∧
          st.selectedOption = some m.correctOptionId ∧
          (step a st).xpGained = rewardFor m.difficulty) ∧
      (∀ d g r, (startGame d g r st).xpGained = st.xpGained) ∧
      (step Action.revealAnswer st).xpGained = st.xpGained ∧
      initState.xpGained = 0 := by
  refine ⟨?_, ?_, ?_, rfl⟩
  · cases a with
    | login u => left; rfl
    | logout => left; rfl
    | start d g r =>
        simp only [step]
        split
        · left
          cases g <;> rfl
        · left; rfl
    | clueClick id =>
        simp only [step]
        split
        · left
          exact handleClueClick_xpGained id st
        · left; rfl
    | puzzleSuccess =>
        left
        exact handlePuzzleSuccess_xpGained st
    | puzzleClose => left; rfl
    | solveCase =>
        simp only [step]
        split <;> (left; rfl)
    | selectSuspect id =>
        simp only [step]
        split <;> (left; rfl)
    | confirm res =>
        simp only [step]
        split
        · rcases submitSolution_xpGained res st with hx | ⟨m, hm, ho, hx⟩
          · left; exact hx
          · right; exact ⟨res, m, rfl, hm, ho, hx⟩
        · left; rfl
    | solvingClose =>
        simp only [step]
        split <;> (left; rfl)
    | celebrationDone =>
        simp only [step]
        split <;> (left; rfl)
    | reexamine =>
        simp only [step]
        split <;> (left; rfl)
    | revealAnswer =>
        simp only [step]
        split <;> (left; rfl)
    | dashboard =>
        simp only [step]
        split <;> (left; rfl)
    | hintFetch r =>
        simp only [step]
        split
        · left
          exact fetchHint_xpGained r st
        · left; rfl
  · intro d g r
    cases g <;> rfl
  · simp only [step]
    split <;> rfl

end DetectiveLogic
